import Mathlib

/-!
Shallow embedding of the service worker `src/sw.js` (Cache Policy Engine).

Modelling choices, each tied to a line of the source:

* A `Request` carries the three fields the code inspects: `method`
  (`event.request.method`, line 35), `pathname` (`new URL(event.request.url).pathname`,
  lines 37/40 — under a single origin the pathname is both the part the code tests
  and the cache key identity), and `mode` (`event.request.mode`, line 43).
* A `Response` is a status code plus a body; `Response.clone` models
  `response.clone()` (lines 47, 60), an identical immutable snapshot.
* The Named Cache (Cache API) is an association list from stored `Request`
  keys to `Response` snapshots; lookup (`caches.match`) matches by URL
  (here: pathname), and `cache.put` overwrites the entry for the same URL.
* `CacheStorage` is the list of (name, cache) pairs owned by the origin;
  `caches.keys`, `caches.delete`, `caches.open` operate on it.
* The network (`fetch`) is a function from pathname to `Option Response`:
  `some r` is a completed HTTP response of any status, `none` is a
  network-level failure (rejected fetch promise).
* A fetch handling returns a `FetchAction`: `passThrough` when the listener
  returns without calling `event.respondWith` (lines 35, 40), or `respond`
  carrying the settled value of the promise passed to `respondWith`
  (`response = none` means that promise resolved `undefined`), together with
  the cache writes the handler initiated, split by whether the write is
  sequenced before the event completes (awaited / registered with
  `event.waitUntil`) or left as a detached floating promise
  (`caches.open(CACHE_NAME).then(cache => cache.put(...))` at lines 48 and 61
  is not chained into the returned promise and the fetch listener never calls
  `event.waitUntil`, so those writes are detached).
-/

structure Request where
  method : String
  pathname : String
  mode : String
deriving DecidableEq

/-- Whether the character list `pat` is an initial segment of `cs`. -/
def listLeads : List Char → List Char → Bool
  | _, [] => true
  | [], _ :: _ => false
  | c :: cs, d :: ds => if d = c then listLeads cs ds else false

/-- Model of JavaScript's `String.prototype.startsWith` (line 40 of the source,
`url.pathname.startsWith('/api/')`), computed on the underlying character
lists so the kernel can evaluate it. -/
def strStartsWith (s pat : String) : Bool :=
  listLeads s.data pat.data

structure Response where
  status : Nat
  body : String
deriving DecidableEq

/-- Model of `response.clone()`: an identical snapshot of status and body. -/
def Response.clone (r : Response) : Response :=
  ⟨r.status, r.body⟩

/-- Model of `Response.ok`: status in the range 200–299 (used by `cache.addAll`,
which rejects on any non-ok response). -/
def Response.ok (r : Response) : Bool :=
  200 ≤ r.status && r.status < 300

/-- One named cache: stored (request key, response snapshot) pairs. -/
abbrev Cache := List (Request × Response)

/-- Cache lookup by URL (pathname), as `cache.match` / `caches.match` do:
first stored entry whose key has this pathname. -/
def cacheMatch : Cache → String → Option Response
  | [], _ => none
  | e :: rest, p => if e.1.pathname = p then some e.2 else cacheMatch rest p

/-- Entries of a cache with a given pathname removed (the overwrite part of
`cache.put`). -/
def cacheDrop : Cache → String → Cache
  | [], _ => []
  | e :: rest, p => if e.1.pathname = p then cacheDrop rest p else e :: cacheDrop rest p

/-- Model of `cache.put(request, response)`: store the snapshot under the
request key, overwriting any entry with the same URL. -/
def cachePut (c : Cache) (req : Request) (resp : Response) : Cache :=
  (req, resp) :: cacheDrop c req.pathname

/-- The origin's cache storage: list of (cache name, cache) pairs. -/
abbrev CacheStorage := List (String × Cache)

/-- Model of `caches.match(request)`: search every named cache in order. -/
def cachesMatch : CacheStorage → String → Option Response
  | [], _ => none
  | nc :: rest, p =>
    match cacheMatch nc.2 p with
    | some r => some r
    | none => cachesMatch rest p

/-- Model of `caches.keys()`. -/
def cachesKeys (s : CacheStorage) : List String :=
  s.map (·.1)

/-- Model of `caches.delete(name)`: remove every cache with that name. -/
def cachesDelete : CacheStorage → String → CacheStorage
  | [], _ => []
  | nc :: rest, k => if nc.1 = k then cachesDelete rest k else nc :: cachesDelete rest k

/-- Model of `caches.open(name)` alone: ensure a cache with that name exists
(create-if-absent), changing nothing else. -/
def cachesOpen : CacheStorage → String → CacheStorage
  | [], name => [(name, [])]
  | nc :: rest, name => if nc.1 = name then nc :: rest else nc :: cachesOpen rest name

/-- Model of `caches.open(name).then(cache => cache.put(req, resp))`:
open-or-create the named cache and store the entry in it. -/
def storagePut : CacheStorage → String → Request → Response → CacheStorage
  | [], name, req, resp => [(name, cachePut [] req resp)]
  | nc :: rest, name, req, resp =>
    if nc.1 = name then (nc.1, cachePut nc.2 req resp) :: rest
    else nc :: storagePut rest name req resp

/-- The cache stored under a given name (empty if absent). -/
def namedCache : CacheStorage → String → Cache
  | [], _ => []
  | nc :: rest, name => if nc.1 = name then nc.2 else namedCache rest name

/-- The network: pathname to completed HTTP response (`some`, any status) or
network-level failure (`none`). -/
abbrev Network := String → Option Response

/-- Source line 2: `const CACHE_NAME = 'celesys-ai-v2';`. -/
def CACHE_NAME : String := "celesys-ai-v2"

/-- Source lines 3–8: the static asset manifest. -/
def STATIC_ASSETS : List String :=
  ["/", "/manifest.json", "/icons/icon-192.png", "/icons/icon-512.png"]

/-- The GET request `cache.addAll` issues for a manifest path. -/
def assetRequest (p : String) : Request :=
  ⟨"GET", p, ""⟩

/-- Whether a fetch outcome is a completed ok response (what `cache.addAll`
requires of every manifest fetch). -/
def fetchOk : Option Response → Bool
  | some r => r.ok
  | none => false

/-- Install handler (source lines 11–20): `caches.open(CACHE_NAME)` then
`cache.addAll(STATIC_ASSETS)`. `addAll` is a batch operation: it fetches every
path and stores the responses only if every fetch produced an ok response;
if any fetch fails or is non-ok the whole batch rejects — the `.catch` logs a
warning and the install still reports success — and no entry is written. -/
def handleInstall (net : Network) (s : CacheStorage) : CacheStorage :=
  let s1 := cachesOpen s CACHE_NAME
  if STATIC_ASSETS.all (fun p => fetchOk (net p)) then
    STATIC_ASSETS.foldl
      (fun acc p =>
        match net p with
        | some r => storagePut acc CACHE_NAME (assetRequest p) r
        | none => acc)
      s1
  else s1

/-- Activate handler (source lines 23–30): delete every cache whose name is
not `CACHE_NAME` (`keys.filter(k => k !== CACHE_NAME).map(k => caches.delete(k))`). -/
def handleActivate (s : CacheStorage) : CacheStorage :=
  ((cachesKeys s).filter (fun k => if k = CACHE_NAME then false else true)).foldl
    cachesDelete s

/-- Outcome of one fetch handling: the settled value of the `respondWith`
promise, plus the cache writes the handler initiated, split into those
sequenced before the event completes and those left as detached floating
promises. -/
structure FetchResult where
  response : Option Response
  sequencedWrites : List (Request × Response)
  detachedWrites : List (Request × Response)
deriving DecidableEq

/-- Either the listener returned without intercepting, or it called
`event.respondWith` with the given outcome. -/
inductive FetchAction where
  | passThrough
  | respond (r : FetchResult)
deriving DecidableEq

/-- Fetch handler (source lines 33–67), translated branch by branch:
non-GET → return (line 35); pathname starts with `/api/` → return (line 40);
navigation mode → network-first with cache fallback (lines 43–54); otherwise →
stale-while-revalidate (lines 57–66). The cache put on success
(`caches.open(CACHE_NAME).then(cache => cache.put(event.request, clone))`,
lines 48 and 61) is a floating promise: it is neither awaited before the
response is returned nor registered with `event.waitUntil`, so it is recorded
as a detached write. -/
def handleFetch (s : CacheStorage) (net : Network) (req : Request) : FetchAction :=
  if req.method ≠ "GET" then .passThrough
  else if strStartsWith req.pathname "/api/" then .passThrough
  else if req.mode = "navigate" then
    match net req.pathname with
    | some resp =>
      .respond { response := some resp
                 sequencedWrites := []
                 detachedWrites := [(req, resp.clone)] }
    | none =>
      .respond { response :=
                   match cachesMatch s req.pathname with
                   | some r => some r
                   | none => cachesMatch s "/"
                 sequencedWrites := []
                 detachedWrites := [] }
  else
    let cached := cachesMatch s req.pathname
    match net req.pathname with
    | some fresh =>
      .respond { response :=
                   match cached with
                   | some c => some c
                   | none => some fresh
                 sequencedWrites := []
                 detachedWrites := [(req, fresh.clone)] }
    | none =>
      .respond { response := cached
                 sequencedWrites := []
                 detachedWrites := [] }

/-- The settled value of the handler's `respondWith` promise (`none` both when
the listener declined to intercept and when the promise resolved absent). -/
def respondedWith : FetchAction → Option Response
  | .passThrough => none
  | .respond r => r.response

/-- All cache writes a fetch handling initiated (sequenced then detached). -/
def fetchWrites : FetchAction → List (Request × Response)
  | .passThrough => []
  | .respond r => r.sequencedWrites ++ r.detachedWrites

/-- The detached (not-kept-alive) cache writes of a fetch handling. -/
def detWrites : FetchAction → List (Request × Response)
  | .passThrough => []
  | .respond r => r.detachedWrites

/-- The sequenced (kept-alive) cache writes of a fetch handling. -/
def seqWrites : FetchAction → List (Request × Response)
  | .passThrough => []
  | .respond r => r.sequencedWrites

/-- Apply a list of cache writes (all fetch-handler puts target `CACHE_NAME`). -/
def applyWrites (s : CacheStorage) (ws : List (Request × Response)) : CacheStorage :=
  ws.foldl (fun acc w => storagePut acc CACHE_NAME w.1 w.2) s

/-- Cache storage after one fetch handling, assuming every initiated write
eventually completes. -/
def storageAfterFetch (s : CacheStorage) (net : Network) (req : Request) : CacheStorage :=
  applyWrites s (fetchWrites (handleFetch s net req))

/-- A network where every fetch completes with a 200 response (used in witnesses). -/
def demoNet : Network := fun p => some ⟨200, p⟩

/-- A network where every fetch fails at network level (used in witnesses). -/
def downNet : Network := fun _ => none

/-- A network where only the root path fetch succeeds; every other fetch fails
(the failing input for the install round-trip claim). -/
def rootOnlyNet : Network := fun p => if p = "/" then some ⟨200, "root"⟩ else none

/-- A key a fetch handling may write: a GET request outside the reserved
`/api/` area (this is what every branch of the code that reaches a
`cache.put` guarantees about `event.request`). -/
def goodKey (req : Request) : Prop :=
  req.method = "GET" ∧ strStartsWith req.pathname "/api/" = false

instance (req : Request) : Decidable (goodKey req) := by
  unfold goodKey
  infer_instance

/-- The Named Cache invariant of the spec: every stored entry is keyed by a
GET request whose path is not under `/api/`. -/
def CacheInv (s : CacheStorage) : Prop :=
  ∀ nc ∈ s, ∀ e ∈ nc.2, goodKey e.1

instance (s : CacheStorage) : Decidable (CacheInv s) := by
  unfold CacheInv
  infer_instance

lemma CacheInv_nil : CacheInv [] := by
  intro nc h
  cases h

lemma CacheInv_cons {nc : String × Cache} {rest : CacheStorage} :
    CacheInv (nc :: rest) ↔ (∀ e ∈ nc.2, goodKey e.1) ∧ CacheInv rest := by
  simp [CacheInv]

lemma mem_cacheDrop {c : Cache} {p : String} {e : Request × Response}
    (h : e ∈ cacheDrop c p) : e ∈ c := by
  induction c with
  | nil => simp [cacheDrop] at h
  | cons hd tl ih =>
    by_cases hp : hd.1.pathname = p
    · simp only [cacheDrop, if_pos hp] at h
      exact List.mem_cons_of_mem hd (ih h)
    · simp only [cacheDrop, if_neg hp] at h
      rw [List.mem_cons] at h
      rcases h with h | h
      · exact h ▸ List.mem_cons_self hd tl
      · exact List.mem_cons_of_mem hd (ih h)

lemma CacheInv_storagePut {s : CacheStorage} (name : String) {req : Request}
    (resp : Response) (h : CacheInv s) (hk : goodKey req) :
    CacheInv (storagePut s name req resp) := by
  induction s with
  | nil =>
    intro nc hnc e he
    simp only [storagePut, List.mem_singleton] at hnc
    subst hnc
    simp only [cachePut, cacheDrop, List.mem_singleton] at he
    subst he
    exact hk
  | cons nc rest ih =>
    rw [CacheInv_cons] at h
    by_cases hn : nc.1 = name
    · rw [storagePut, if_pos hn, CacheInv_cons]
      refine ⟨?_, h.2⟩
      intro e he
      rw [cachePut, List.mem_cons] at he
      rcases he with he | he
      · exact he ▸ hk
      · exact h.1 e (mem_cacheDrop he)
    · rw [storagePut, if_neg hn, CacheInv_cons]
      exact ⟨h.1, ih h.2⟩

lemma CacheInv_cachesOpen {s : CacheStorage} (name : String) (h : CacheInv s) :
    CacheInv (cachesOpen s name) := by
  induction s with
  | nil =>
    intro nc hnc e he
    simp only [cachesOpen, List.mem_singleton] at hnc
    subst hnc
    cases he
  | cons nc rest ih =>
    rw [CacheInv_cons] at h
    by_cases hn : nc.1 = name
    · rw [cachesOpen, if_pos hn, CacheInv_cons]
      exact h
    · rw [cachesOpen, if_neg hn, CacheInv_cons]
      exact ⟨h.1, ih h.2⟩

lemma CacheInv_cachesDelete {s : CacheStorage} (k : String) (h : CacheInv s) :
    CacheInv (cachesDelete s k) := by
  induction s with
  | nil => exact CacheInv_nil
  | cons nc rest ih =>
    rw [CacheInv_cons] at h
    by_cases hn : nc.1 = k
    · rw [cachesDelete, if_pos hn]
      exact ih h.2
    · rw [cachesDelete, if_neg hn, CacheInv_cons]
      exact ⟨h.1, ih h.2⟩

lemma CacheInv_foldl_assets (net : Network) (ps : List String) (s : CacheStorage)
    (h : CacheInv s) (hp : ∀ p ∈ ps, strStartsWith p "/api/" = false) :
    CacheInv (ps.foldl
      (fun acc p =>
        match net p with
        | some r => storagePut acc CACHE_NAME (assetRequest p) r
        | none => acc)
      s) := by
  induction ps generalizing s with
  | nil => exact h
  | cons p ps ih =>
    rw [List.foldl_cons]
    refine ih _ ?_ (fun q hq => hp q (List.mem_cons_of_mem p hq))
    cases hnet : net p with
    | none => exact h
    | some r =>
      exact CacheInv_storagePut CACHE_NAME r h
        ⟨rfl, hp p (List.mem_cons_self p ps)⟩

lemma CacheInv_handleInstall (net : Network) (s : CacheStorage) (h : CacheInv s) :
    CacheInv (handleInstall net s) := by
  unfold handleInstall
  by_cases hall : STATIC_ASSETS.all (fun p => fetchOk (net p)) = true
  · rw [if_pos hall]
    exact CacheInv_foldl_assets net STATIC_ASSETS (cachesOpen s CACHE_NAME)
      (CacheInv_cachesOpen CACHE_NAME h) (by decide)
  · rw [if_neg hall]
    exact CacheInv_cachesOpen CACHE_NAME h

lemma CacheInv_foldl_delete (ks : List String) (s : CacheStorage) (h : CacheInv s) :
    CacheInv (ks.foldl cachesDelete s) := by
  induction ks generalizing s with
  | nil => exact h
  | cons k ks ih =>
    rw [List.foldl_cons]
    exact ih _ (CacheInv_cachesDelete k h)

lemma CacheInv_handleActivate (s : CacheStorage) (h : CacheInv s) :
    CacheInv (handleActivate s) := by
  unfold handleActivate
  exact CacheInv_foldl_delete _ s h

section BranchLemmas

variable {s : CacheStorage} {net : Network} {req : Request}

lemma handleFetch_nonget (h : req.method ≠ "GET") :
    handleFetch s net req = .passThrough := by
  unfold handleFetch
  rw [if_pos h]

lemma handleFetch_api (hp : strStartsWith req.pathname "/api/" = true) :
    handleFetch s net req = .passThrough := by
  unfold handleFetch
  by_cases hm : req.method = "GET"
  · rw [if_neg (not_not_intro hm), if_pos hp]
  · rw [if_pos hm]

lemma handleFetch_nav_some {resp : Response} (hm : req.method = "GET")
    (hp : strStartsWith req.pathname "/api/" = false) (hmode : req.mode = "navigate")
    (hnet : net req.pathname = some resp) :
    handleFetch s net req =
      .respond { response := some resp
                 sequencedWrites := []
                 detachedWrites := [(req, resp.clone)] } := by
  unfold handleFetch
  rw [if_neg (not_not_intro hm), if_neg (by simp [hp]), if_pos hmode, hnet]

lemma handleFetch_nav_fail (hm : req.method = "GET")
    (hp : strStartsWith req.pathname "/api/" = false) (hmode : req.mode = "navigate")
    (hnet : net req.pathname = none) :
    handleFetch s net req =
      .respond { response :=
                   match cachesMatch s req.pathname with
                   | some r => some r
                   | none => cachesMatch s "/"
                 sequencedWrites := []
                 detachedWrites := [] } := by
  unfold handleFetch
  rw [if_neg (not_not_intro hm), if_neg (by simp [hp]), if_pos hmode, hnet]

lemma handleFetch_swr_some {fresh : Response} (hm : req.method = "GET")
    (hp : strStartsWith req.pathname "/api/" = false) (hmode : req.mode ≠ "navigate")
    (hnet : net req.pathname = some fresh) :
    handleFetch s net req =
      .respond { response :=
                   match cachesMatch s req.pathname with
                   | some c => some c
                   | none => some fresh
                 sequencedWrites := []
                 detachedWrites := [(req, fresh.clone)] } := by
  unfold handleFetch
  rw [if_neg (not_not_intro hm), if_neg (by simp [hp]), if_neg hmode, hnet]

lemma handleFetch_swr_fail (hm : req.method = "GET")
    (hp : strStartsWith req.pathname "/api/" = false) (hmode : req.mode ≠ "navigate")
    (hnet : net req.pathname = none) :
    handleFetch s net req =
      .respond { response := cachesMatch s req.pathname
                 sequencedWrites := []
                 detachedWrites := [] } := by
  unfold handleFetch
  rw [if_neg (not_not_intro hm), if_neg (by simp [hp]), if_neg hmode, hnet]

end BranchLemmas

lemma fetchWrites_goodKey (s : CacheStorage) (net : Network) (req : Request) :
    ∀ w ∈ fetchWrites (handleFetch s net req), goodKey w.1 := by
  intro w hw
  by_cases hm : req.method = "GET"
  · cases hp : strStartsWith req.pathname "/api/" with
    | true => rw [handleFetch_api hp] at hw; simp [fetchWrites] at hw
    | false =>
      by_cases hmode : req.mode = "navigate"
      · cases hnet : net req.pathname with
        | some resp =>
          rw [handleFetch_nav_some hm hp hmode hnet] at hw
          simp only [fetchWrites, List.nil_append, List.mem_singleton] at hw
          rw [hw]
          exact ⟨hm, hp⟩
        | none =>
          rw [handleFetch_nav_fail hm hp hmode hnet] at hw
          simp [fetchWrites] at hw
      · cases hnet : net req.pathname with
        | some resp =>
          rw [handleFetch_swr_some hm hp hmode hnet] at hw
          simp only [fetchWrites, List.nil_append, List.mem_singleton] at hw
          rw [hw]
          exact ⟨hm, hp⟩
        | none =>
          rw [handleFetch_swr_fail hm hp hmode hnet] at hw
          simp [fetchWrites] at hw
  · rw [handleFetch_nonget hm] at hw
    simp [fetchWrites] at hw

lemma CacheInv_applyWrites (ws : List (Request × Response)) (s : CacheStorage)
    (h : CacheInv s) (hw : ∀ w ∈ ws, goodKey w.1) : CacheInv (applyWrites s ws) := by
  induction ws generalizing s with
  | nil => exact h
  | cons w ws ih =>
    rw [applyWrites, List.foldl_cons]
    exact ih (storagePut s CACHE_NAME w.1 w.2)
      (CacheInv_storagePut CACHE_NAME w.2 h (hw w (List.mem_cons_self w ws)))
      (fun q hq => hw q (List.mem_cons_of_mem w hq))

lemma CacheInv_storageAfterFetch (s : CacheStorage) (net : Network) (req : Request)
    (h : CacheInv s) : CacheInv (storageAfterFetch s net req) :=
  CacheInv_applyWrites _ s h (fetchWrites_goodKey s net req)

lemma namedCache_storagePut (s : CacheStorage) (name : String) (req : Request)
    (resp : Response) :
    namedCache (storagePut s name req resp) name = cachePut (namedCache s name) req resp := by
  induction s with
  | nil => simp [storagePut, namedCache]
  | cons nc rest ih =>
    by_cases h : nc.1 = name
    · rw [storagePut, if_pos h, namedCache, if_pos h, namedCache, if_pos h]
    · rw [storagePut, if_neg h, namedCache, if_neg h, namedCache, if_neg h]
      exact ih

lemma cacheMatch_cachePut_self (c : Cache) (req : Request) (resp : Response) :
    cacheMatch (cachePut c req resp) req.pathname = some resp := by
  rw [cachePut, cacheMatch, if_pos rfl]

lemma applyWrites_nil (s : CacheStorage) : applyWrites s [] = s := rfl

lemma applyWrites_single (s : CacheStorage) (req : Request) (resp : Response) :
    applyWrites s [(req, resp)] = storagePut s CACHE_NAME req resp := rfl

lemma mem_keys_cachesDelete (s : CacheStorage) (k name : String) :
    name ∈ cachesKeys (cachesDelete s k) ↔ name ∈ cachesKeys s ∧ name ≠ k := by
  induction s with
  | nil => simp [cachesDelete, cachesKeys]
  | cons nc rest ih =>
    by_cases h : nc.1 = k
    · rw [cachesDelete, if_pos h, ih]
      subst h
      simp only [cachesKeys, List.map_cons, List.mem_cons]
      constructor
      · rintro ⟨hmem, hne⟩
        exact ⟨Or.inr hmem, hne⟩
      · rintro ⟨hor, hne⟩
        rcases hor with heq | hmem
        · exact absurd heq hne
        · exact ⟨hmem, hne⟩
    · rw [cachesDelete, if_neg h]
      simp only [cachesKeys, List.map_cons, List.mem_cons] at *
      rw [ih]
      constructor
      · rintro (heq | ⟨hmem, hne⟩)
        · exact ⟨Or.inl heq, heq ▸ h⟩
        · exact ⟨Or.inr hmem, hne⟩
      · rintro ⟨hor, hne⟩
        rcases hor with heq | hmem
        · exact Or.inl heq
        · exact Or.inr ⟨hmem, hne⟩

lemma mem_keys_foldl_delete (ks : List String) (s : CacheStorage) (name : String) :
    name ∈ cachesKeys (ks.foldl cachesDelete s) ↔ name ∈ cachesKeys s ∧ name ∉ ks := by
  induction ks generalizing s with
  | nil => simp
  | cons k ks ih =>
    rw [List.foldl_cons, ih, mem_keys_cachesDelete]
    simp only [List.mem_cons, not_or]
    constructor
    · rintro ⟨⟨hmem, hnk⟩, hnks⟩
      exact ⟨hmem, hnk, hnks⟩
    · rintro ⟨hmem, hnk, hnks⟩
      exact ⟨⟨hmem, hnk⟩, hnks⟩

/-- Storage and requests used by the concrete witnesses below. -/
def demoStorage : CacheStorage :=
  [(CACHE_NAME, [(⟨"GET", "/", ""⟩, ⟨200, "root"⟩)])]

/-- Two cache generations as in the spec's activation scenario. -/
def oldCaches : CacheStorage :=
  [("celesys-ai-v1", []), ("celesys-ai-v2", [])]

/-- A network answering every fetch with a 404 response (used to witness that
error responses are cached). -/
def notFoundNet : Network := fun _ => some ⟨404, "not found"⟩

/-- A storage holding a previously cached good response for `/styles/app.css`. -/
def goodCssStorage : CacheStorage :=
  [(CACHE_NAME, [(⟨"GET", "/styles/app.css", "no-cors"⟩, ⟨200, "good"⟩)])]

/-- A storage holding a previously cached response for `/icons/icon-192.png`. -/
def iconStorage : CacheStorage :=
  [(CACHE_NAME, [(⟨"GET", "/icons/icon-192.png", "no-cors"⟩, ⟨200, "old icon"⟩)])]

/-- C1: for every intercepted request whose HTTP method is not GET, the fetch
handler declines to intercept (it never calls `event.respondWith`, so it
supplies no response) and the cache storage is left exactly as it was: the
listener returns at line 35 before any cache read or write is reached. -/
theorem fetch_nonget_passthrough (s : CacheStorage) (net : Network) (req : Request)
    (h : req.method ≠ "GET") :
    handleFetch s net req = .passThrough ∧ storageAfterFetch s net req = s := by
  refine ⟨handleFetch_nonget h, ?_⟩
  rw [storageAfterFetch, handleFetch_nonget h]
  rfl

theorem fetch_nonget_passthrough_witness :
    (handleFetch [] demoNet ⟨"POST", "/api/generate-report", ""⟩ = .passThrough ∧
      storageAfterFetch [] demoNet ⟨"POST", "/api/generate-report", ""⟩ = []) ∧
    (handleFetch [] demoNet ⟨"PUT", "/data", ""⟩ = .passThrough ∧
      storageAfterFetch [] demoNet ⟨"PUT", "/data", ""⟩ = []) ∧
    (handleFetch [] demoNet ⟨"DELETE", "/data", ""⟩ = .passThrough ∧
      storageAfterFetch [] demoNet ⟨"DELETE", "/data", ""⟩ = []) ∧
    (handleFetch [] demoNet ⟨"PATCH", "/data", ""⟩ = .passThrough ∧
      storageAfterFetch [] demoNet ⟨"PATCH", "/data", ""⟩ = []) :=
  ⟨fetch_nonget_passthrough [] demoNet _ (by decide),
   fetch_nonget_passthrough [] demoNet _ (by decide),
   fetch_nonget_passthrough [] demoNet _ (by decide),
   fetch_nonget_passthrough [] demoNet _ (by decide)⟩

/-- C7: for every intercepted request whose URL path starts with `/api/`,
whatever its method, the engine does not intervene: it supplies no response
and the cache storage is unchanged (non-GET requests return at line 35, GET
requests under `/api/` return at line 40). -/
theorem api_path_passthrough (s : CacheStorage) (net : Network) (req : Request)
    (h : strStartsWith req.pathname "/api/" = true) :
    handleFetch s net req = .passThrough ∧ storageAfterFetch s net req = s := by
  refine ⟨handleFetch_api h, ?_⟩
  rw [storageAfterFetch, handleFetch_api h]
  rfl

theorem api_path_passthrough_witness :
    (handleFetch demoStorage demoNet ⟨"GET", "/api/users", ""⟩ = .passThrough ∧
      storageAfterFetch demoStorage demoNet ⟨"GET", "/api/users", ""⟩ = demoStorage) ∧
    (handleFetch demoStorage demoNet ⟨"POST", "/api/generate-report", ""⟩ = .passThrough ∧
      storageAfterFetch demoStorage demoNet ⟨"POST", "/api/generate-report", ""⟩ =
        demoStorage) :=
  ⟨api_path_passthrough demoStorage demoNet _ (by decide),
   api_path_passthrough demoStorage demoNet _ (by decide)⟩

/-- C2: the Named Cache invariant — every stored entry is keyed by a GET
request whose path is not under `/api/` — is preserved by the install handler,
the activate handler, and any fetch handling (for any request, even non-GET or
`/api/` ones, whose handling writes nothing). -/
theorem cache_invariant_preserved (s : CacheStorage) (net : Network) (req : Request)
    (h : CacheInv s) :
    CacheInv (handleInstall net s) ∧ CacheInv (handleActivate s) ∧
      CacheInv (storageAfterFetch s net req) :=
  ⟨CacheInv_handleInstall net s h, CacheInv_handleActivate s h,
   CacheInv_storageAfterFetch s net req h⟩

theorem cache_invariant_preserved_witness :
    CacheInv (handleInstall demoNet demoStorage) ∧ CacheInv (handleActivate demoStorage) ∧
      CacheInv (storageAfterFetch demoStorage demoNet ⟨"GET", "/dashboard", "navigate"⟩) :=
  cache_invariant_preserved demoStorage demoNet _ (by decide)

/-- C3: for a navigation-mode GET request outside `/api/` whose network fetch
fails, the engine returns the previously cached response for this exact
request if one exists; otherwise it returns whatever is cached for the root
path `/`; and when that too is absent the `respondWith` promise resolves
absent — an unhandled failure surfaced by the browser. No cache write happens
on this path. -/
theorem navigate_network_failure_fallback (s : CacheStorage) (net : Network)
    (req : Request) (hm : req.method = "GET")
    (hp : strStartsWith req.pathname "/api/" = false)
    (hmode : req.mode = "navigate") (hnet : net req.pathname = none) :
    (∀ r, cachesMatch s req.pathname = some r →
        handleFetch s net req = .respond ⟨some r, [], []⟩) ∧
    (cachesMatch s req.pathname = none →
        handleFetch s net req = .respond ⟨cachesMatch s "/", [], []⟩) ∧
    (cachesMatch s req.pathname = none → cachesMatch s "/" = none →
        respondedWith (handleFetch s net req) = none) := by
  refine ⟨?_, ?_, ?_⟩
  · intro r hc
    rw [handleFetch_nav_fail hm hp hmode hnet, hc]
  · intro hc
    rw [handleFetch_nav_fail hm hp hmode hnet, hc]
  · intro hc hroot
    rw [handleFetch_nav_fail hm hp hmode hnet, hc, hroot]
    rfl

theorem navigate_network_failure_fallback_witness :
    handleFetch demoStorage downNet ⟨"GET", "/dashboard", "navigate"⟩ =
      .respond ⟨some ⟨200, "root"⟩, [], []⟩ := by
  have h :=
    (navigate_network_failure_fallback demoStorage downNet
      ⟨"GET", "/dashboard", "navigate"⟩ rfl (by decide) rfl rfl).2.1 (by decide)
  rw [h]
  decide

/-- C8: a stale-while-revalidate request (GET, outside `/api/`, not
navigation) with no cached entry and a failing network fetch terminates
normally: the handler still calls `event.respondWith`, its promise resolves
absent (the `.catch(() => cached)` at line 63 swallows the network error and
yields the absent cached value), and no exception escapes — `handleFetch` is a
total function and this is its value. -/
theorem swr_miss_network_failure_absent (s : CacheStorage) (net : Network)
    (req : Request) (hm : req.method = "GET")
    (hp : strStartsWith req.pathname "/api/" = false)
    (hmode : req.mode ≠ "navigate") (hc : cachesMatch s req.pathname = none)
    (hnet : net req.pathname = none) :
    handleFetch s net req = .respond ⟨none, [], []⟩ := by
  rw [handleFetch_swr_fail hm hp hmode hnet, hc]

theorem swr_miss_network_failure_absent_witness :
    handleFetch [] downNet ⟨"GET", "/styles/app.css", "no-cors"⟩ =
      .respond ⟨none, [], []⟩ :=
  swr_miss_network_failure_absent [] downNet ⟨"GET", "/styles/app.css", "no-cors"⟩
    rfl (by decide) (by decide) rfl rfl

/-- C4: stale-while-revalidate (GET, outside `/api/`, not navigation): a
cached response, when present, is returned immediately (even though the
network fetch proceeds); with no cached entry the handler resolves with the
network outcome — the fresh response on success, absent on failure; every
successful network fetch stores a duplicate of the fresh response into the
cache keyed by this request; a failing fetch writes nothing and resolves with
the previously cached response. -/
theorem stale_while_revalidate_behavior (s : CacheStorage) (net : Network)
    (req : Request) (hm : req.method = "GET")
    (hp : strStartsWith req.pathname "/api/" = false)
    (hmode : req.mode ≠ "navigate") :
    (∀ c, cachesMatch s req.pathname = some c →
        respondedWith (handleFetch s net req) = some c) ∧
    (∀ fresh, cachesMatch s req.pathname = none → net req.pathname = some fresh →
        respondedWith (handleFetch s net req) = some fresh) ∧
    (∀ fresh, net req.pathname = some fresh →
        fetchWrites (handleFetch s net req) = [(req, fresh.clone)] ∧
        cacheMatch (namedCache (storageAfterFetch s net req) CACHE_NAME) req.pathname =
          some fresh.clone) ∧
    (net req.pathname = none →
        respondedWith (handleFetch s net req) = cachesMatch s req.pathname ∧
        fetchWrites (handleFetch s net req) = []) := by
  refine ⟨?_, ?_, ?_, ?_⟩
  · intro c hc
    cases hnet : net req.pathname with
    | some fresh =>
      rw [handleFetch_swr_some hm hp hmode hnet]
      simp [respondedWith, hc]
    | none =>
      rw [handleFetch_swr_fail hm hp hmode hnet]
      simp [respondedWith, hc]
  · intro fresh hc hnet
    rw [handleFetch_swr_some hm hp hmode hnet]
    simp [respondedWith, hc]
  · intro fresh hnet
    constructor
    · rw [handleFetch_swr_some hm hp hmode hnet]
      rfl
    · rw [storageAfterFetch, handleFetch_swr_some hm hp hmode hnet]
      simp only [fetchWrites, List.nil_append]
      rw [applyWrites_single, namedCache_storagePut, cacheMatch_cachePut_self]
  · intro hnet
    rw [handleFetch_swr_fail hm hp hmode hnet]
    exact ⟨rfl, rfl⟩

theorem stale_while_revalidate_behavior_witness :
    respondedWith (handleFetch iconStorage demoNet ⟨"GET", "/icons/icon-192.png", "no-cors"⟩) =
      some ⟨200, "old icon"⟩ ∧
    cacheMatch
        (namedCache
          (storageAfterFetch iconStorage demoNet ⟨"GET", "/icons/icon-192.png", "no-cors"⟩)
          CACHE_NAME)
        "/icons/icon-192.png" =
      some (Response.clone ⟨200, "/icons/icon-192.png"⟩) := by
  have h := stale_while_revalidate_behavior iconStorage demoNet
    ⟨"GET", "/icons/icon-192.png", "no-cors"⟩ rfl (by decide) (by decide)
  exact ⟨h.1 ⟨200, "old icon"⟩ (by decide), (h.2.2.1 ⟨200, "/icons/icon-192.png"⟩ rfl).2⟩

/-- C6: activation deletes a named cache exactly when its name differs from
the current version's cache name: a name present before activation survives
it if and only if it equals `CACHE_NAME`. -/
theorem activate_deletes_iff_not_current (s : CacheStorage) (name : String)
    (h : name ∈ cachesKeys s) :
    name ∈ cachesKeys (handleActivate s) ↔ name = CACHE_NAME := by
  unfold handleActivate
  rw [mem_keys_foldl_delete]
  constructor
  · rintro ⟨hmem, hnot⟩
    by_contra hne
    exact hnot (List.mem_filter.mpr ⟨h, by rw [if_neg hne]⟩)
  · intro heq
    refine ⟨h, fun hmem => ?_⟩
    have hval := (List.mem_filter.mp hmem).2
    rw [if_pos heq] at hval
    exact absurd hval (by simp)

theorem activate_deletes_iff_not_current_witness :
    ("celesys-ai-v1" ∈ cachesKeys (handleActivate oldCaches) ↔
      "celesys-ai-v1" = CACHE_NAME) ∧
    ("celesys-ai-v2" ∈ cachesKeys (handleActivate oldCaches) ↔
      "celesys-ai-v2" = CACHE_NAME) ∧
    handleActivate oldCaches = [("celesys-ai-v2", [])] :=
  ⟨activate_deletes_iff_not_current oldCaches _ (by decide),
   activate_deletes_iff_not_current oldCaches _ (by decide),
   by decide⟩

/-- C10: in both cache-writing strategies, any network fetch that completes
with an HTTP response is treated as success: the handler stores a duplicate of
it into the `celesys-ai-v2` cache keyed by the request, whatever the status
code (404 and 500 included), overwriting any previously cached response for
that URL; only a network-level fetch failure performs no write. -/
theorem network_response_cached_regardless_of_status (s : CacheStorage)
    (net : Network) (req : Request) (hm : req.method = "GET")
    (hp : strStartsWith req.pathname "/api/" = false) :
    (∀ resp, net req.pathname = some resp →
        fetchWrites (handleFetch s net req) = [(req, resp.clone)] ∧
        cacheMatch (namedCache (storageAfterFetch s net req) CACHE_NAME) req.pathname =
          some resp.clone) ∧
    (net req.pathname = none → fetchWrites (handleFetch s net req) = []) := by
  constructor
  · intro resp hnet
    by_cases hmode : req.mode = "navigate"
    · constructor
      · rw [handleFetch_nav_some hm hp hmode hnet]
        rfl
      · rw [storageAfterFetch, handleFetch_nav_some hm hp hmode hnet]
        simp only [fetchWrites, List.nil_append]
        rw [applyWrites_single, namedCache_storagePut, cacheMatch_cachePut_self]
    · constructor
      · rw [handleFetch_swr_some hm hp hmode hnet]
        rfl
      · rw [storageAfterFetch, handleFetch_swr_some hm hp hmode hnet]
        simp only [fetchWrites, List.nil_append]
        rw [applyWrites_single, namedCache_storagePut, cacheMatch_cachePut_self]
  · intro hnet
    by_cases hmode : req.mode = "navigate"
    · rw [handleFetch_nav_fail hm hp hmode hnet]
      rfl
    · rw [handleFetch_swr_fail hm hp hmode hnet]
      rfl

theorem network_response_cached_regardless_of_status_witness :
    fetchWrites (handleFetch goodCssStorage notFoundNet
        ⟨"GET", "/styles/app.css", "no-cors"⟩) =
      [(⟨"GET", "/styles/app.css", "no-cors"⟩, Response.clone ⟨404, "not found"⟩)] ∧
    cacheMatch
        (namedCache
          (storageAfterFetch goodCssStorage notFoundNet
            ⟨"GET", "/styles/app.css", "no-cors"⟩)
          CACHE_NAME)
        "/styles/app.css" =
      some (Response.clone ⟨404, "not found"⟩) :=
  (network_response_cached_regardless_of_status goodCssStorage notFoundNet
    ⟨"GET", "/styles/app.css", "no-cors"⟩ rfl (by decide)).1 ⟨404, "not found"⟩ rfl

/-- C5 failing-input evaluation: with a network where the manifest path `/`
fetches successfully but every other manifest path fails, `cache.addAll`
rejects as a whole (the batch is atomic), the `.catch` swallows the error, and
after install the successfully fetched `/` is NOT retrievable from the
`celesys-ai-v2` cache — the code keeps no partial manifest cache, contrary to
the claim that individually successful fetches survive the failure of other
assets. -/
theorem install_atomic_addAll_no_partial_cache :
    fetchOk (rootOnlyNet "/") = true ∧
    cacheMatch (namedCache (handleInstall rootOnlyNet []) CACHE_NAME) "/" = none ∧
    cachesMatch (handleInstall rootOnlyNet []) "/" = none := by
  decide

/-- C9 failing-input evaluation: on a successful navigation fetch and on a
successful stale-while-revalidate fetch, the cache write the handler initiates
is a detached floating promise (`caches.open(CACHE_NAME).then(cache =>
cache.put(...))`, lines 48 and 61, neither awaited before the response is
returned nor registered with `event.waitUntil` — the fetch listener never
calls `waitUntil` at all), so no cache write is sequenced before the event
completes, contrary to the claim that the handler keeps the event alive until
the write finishes. -/
theorem fetch_cache_writes_detached :
    (seqWrites (handleFetch [] demoNet ⟨"GET", "/dashboard", "navigate"⟩) = [] ∧
      detWrites (handleFetch [] demoNet ⟨"GET", "/dashboard", "navigate"⟩) ≠ []) ∧
    (seqWrites (handleFetch [] demoNet ⟨"GET", "/styles/app.css", "no-cors"⟩) = [] ∧
      detWrites (handleFetch [] demoNet ⟨"GET", "/styles/app.css", "no-cors"⟩) ≠ []) := by
  decide
